import Mathlib

/-!
Verification of the scheduled-actions engine of open-webui-custom.

The embedding translates the scheduler service
(`backend/open_webui/services/scheduler.py`) and the repository layer
(`backend/open_webui/models/scheduled_actions.py`) into pure Lean
functions.  Python dictionaries become association lists over a small
value type `PyVal`; the database becomes a list of rows; APScheduler's
job registry becomes an association list keyed by job id.  External
libraries (croniter validation, ISO-8601 parsing, APScheduler's
next-fire computation, and the action executors) are parameters of the
model, gathered in the `SchedEnv` structure; executor invocations may raise,
modelled with `Except`.
-/

/-- A Python value as it appears in the JSON config dictionaries. -/
inductive PyVal where
  | vStr : String → PyVal
  | vBool : Bool → PyVal
  | vInt : Int → PyVal
deriving DecidableEq, Repr

/-- A Python dict with string keys: association list, first binding wins. -/
abbrev Dict := List (String × PyVal)

/-- Python `d.get(k)` — `None` for a missing key. -/
def dictGet (d : Dict) (k : String) : Option PyVal :=
  (d.find? (fun p => p.1 == k)).map (fun p => p.2)

/-- Python `{**d, k: v}`: every binding of `d` is kept except `k`, which is
    (re)bound to `v`. -/
def dictSet (d : Dict) (k : String) (v : PyVal) : Dict :=
  (d.filter (fun p => p.1 != k)) ++ [(k, v)]

/-- Python truthiness of a `PyVal`. -/
def pyTruthy : PyVal → Bool
  | .vStr s => s != ""
  | .vBool b => b
  | .vInt n => n != 0

/-- Python `a or b` on two optional values (falsy left operand selects `b`). -/
def pyOr (a b : Option PyVal) : Option PyVal :=
  match a with
  | some v => if pyTruthy v then some v else b
  | none => b

/-- Python whitespace, as split on by `str.split()` with no argument. -/
def isPyWS (c : Char) : Bool :=
  c == ' ' || c == '\t' || c == '\n' || c == '\r' || c == '\x0b' || c == '\x0c'

/-- Helper of `pySplit`: accumulate the current (reversed) token while
    walking the character list. -/
def pySplitAux : List Char → List Char → List String
  | [], cur => if cur = [] then [] else [String.mk cur.reverse]
  | c :: cs, cur =>
    if isPyWS c then
      if cur = [] then pySplitAux cs []
      else String.mk cur.reverse :: pySplitAux cs []
    else pySplitAux cs (c :: cur)

/-- Python `str.split()` with no argument: maximal runs of non-whitespace
    characters, no empty tokens. -/
def pySplit (s : String) : List String :=
  pySplitAux s.data []

/-- Row of the `scheduled_action` table / `ScheduledActionModel`
    (models/scheduled_actions.py). Timestamps are seconds since epoch. -/
structure ScheduledActionModel where
  id : String
  user_id : String
  name : String
  description : Option String := none
  action_type : String
  action_config : Dict
  schedule_type : String
  schedule_config : Dict
  enabled : Bool := true
  last_run_at : Option Nat := none
  next_run_at : Option Nat := none
  created_at : Nat := 0
  updated_at : Nat := 0
deriving DecidableEq, Repr

/-- `ScheduledActionUpdateForm` (models/scheduled_actions.py:67); a `none`
    field is an unset field, excluded by `model_dump(exclude_unset=True)`. -/
structure ScheduledActionUpdateForm where
  name : Option String := none
  description : Option String := none
  action_config : Option Dict := none
  schedule_type : Option String := none
  schedule_config : Option Dict := none
  enabled : Option Bool := none
deriving DecidableEq, Repr

abbrev DB := List ScheduledActionModel

/-- `ScheduledActionsTable.get_scheduled_action_by_id`: first row matching the id. -/
def get_scheduled_action_by_id (db : DB) (id : String) : Option ScheduledActionModel :=
  db.find? (fun a => a.id == id)

/-- `ScheduledActionsTable.get_enabled_scheduled_actions`: rows with `enabled = true`. -/
def get_enabled_scheduled_actions (db : DB) : List ScheduledActionModel :=
  db.filter (fun a => a.enabled)

/-- Apply an update to the first row whose id matches (SQLAlchemy
    `filter_by(id=id).first()` followed by `setattr` and `commit`). -/
def dbUpdateFirst (db : DB) (id : String)
    (f : ScheduledActionModel → ScheduledActionModel) : DB :=
  match db with
  | [] => []
  | a :: rest => if a.id == id then f a :: rest else a :: dbUpdateFirst rest id f

/-- The per-row effect of `update_scheduled_action_by_id`
    (models/scheduled_actions.py:173): set every field the form provides,
    refresh `updated_at`. -/
def applyUpdateForm (a : ScheduledActionModel) (form : ScheduledActionUpdateForm)
    (now : Nat) : ScheduledActionModel :=
  let a := match form.name with | some v => { a with name := v } | none => a
  let a := match form.description with | some v => { a with description := some v } | none => a
  let a := match form.action_config with | some v => { a with action_config := v } | none => a
  let a := match form.schedule_type with | some v => { a with schedule_type := v } | none => a
  let a := match form.schedule_config with | some v => { a with schedule_config := v } | none => a
  let a := match form.enabled with | some v => { a with enabled := v } | none => a
  { a with updated_at := now }

/-- `ScheduledActionsTable.update_scheduled_action_by_id`
    (models/scheduled_actions.py:173). -/
def update_scheduled_action_by_id (db : DB) (id : String)
    (form : ScheduledActionUpdateForm) (now : Nat) :
    DB × Option ScheduledActionModel :=
  match get_scheduled_action_by_id db id with
  | none => (db, none)
  | some a0 =>
    (dbUpdateFirst db id (fun a => applyUpdateForm a form now),
     some (applyUpdateForm a0 form now))

/-- The per-row effect of `update_scheduled_action_run_times`
    (models/scheduled_actions.py:204): always writes `last_run_at`, writes
    `next_run_at` only when the argument is not `None`, refreshes `updated_at`. -/
def runTimesUpd (last_run_at : Nat) (next_run_at : Option Nat) (now : Nat)
    (a : ScheduledActionModel) : ScheduledActionModel :=
  { a with
    last_run_at := some last_run_at,
    next_run_at := match next_run_at with
      | some t => some t
      | none => a.next_run_at,
    updated_at := now }

/-- `ScheduledActionsTable.update_scheduled_action_run_times`
    (models/scheduled_actions.py:204). -/
def update_scheduled_action_run_times (db : DB) (id : String)
    (last_run_at : Nat) (next_run_at : Option Nat) (now : Nat) : DB × Bool :=
  match get_scheduled_action_by_id db id with
  | none => (db, false)
  | some _ =>
    (dbUpdateFirst db id (runTimesUpd last_run_at next_run_at now), true)

/-- An APScheduler trigger as built by `SchedulerService._create_trigger`. -/
inductive Trigger where
  | cron (minute hour day month day_of_week : String)
  | interval (unit : String) (value : Int)
  | date (run_date : Nat)
deriving DecidableEq, Repr

/-- The units accepted as `IntervalTrigger` interval keywords. -/
def intervalUnits : List String := ["weeks", "days", "hours", "minutes", "seconds"]

/-- Modelled from the spec: APScheduler's `IntervalTrigger` constructor is
    external to this repository.  Per the spec, `unit` must come from the
    fixed set seconds / minutes / hours / days / weeks; any other unit makes
    construction fail (the scheduler's surrounding `except` then yields no
    trigger). -/
def mkIntervalTrigger (unit : String) (value : Int) : Option Trigger :=
  if intervalUnits.contains unit then some (Trigger.interval unit value) else none

/-- Python `int(x)` coercion as far as the interval value needs it: ints pass
    through, bools are 0/1, a string is rejected by `IntervalTrigger`. -/
def pyNum : PyVal → Option Int
  | .vInt n => some n
  | .vBool b => some (if b then 1 else 0)
  | .vStr _ => none

/-- External collaborators of the scheduler, parameters of the model:
    `croniter.is_valid`, `datetime.fromisoformat` (on the Z-normalised
    string, returning an epoch instant), APScheduler's next-fire computation
    for a freshly added job, the executor registry lookup, the executor
    invocation (which may raise), and whether the SQLAlchemy write of a
    merged `action_config` raises. -/
structure SchedEnv where
  isValidCron : String → Bool
  parseISO : String → Option Nat
  nextFire : Trigger → Option Nat
  hasExecutor : String → Bool
  runExecutor : String → Dict → Except String Dict
  configWriteFails : Option String := none

/-- `SchedulerService._create_trigger` (services/scheduler.py:121): turn
    `(schedule_type, schedule_config)` into a trigger, or `none` when the
    schedule is invalid (every failure path logs and returns `None`). -/
def create_trigger (ext : SchedEnv) (action : ScheduledActionModel) : Option Trigger :=
  let config := action.schedule_config
  if action.schedule_type == "cron" then
    match (dictGet config "expression").getD (PyVal.vStr "0 9 * * *") with
    | PyVal.vStr cron_expr =>
      if ext.isValidCron cron_expr then
        match pySplit cron_expr with
        | [minute, hour, day, month, day_of_week] =>
          some (Trigger.cron minute hour day month day_of_week)
        | _ => none
      else none
    | _ => none
  else if action.schedule_type == "interval" then
    let value := (dictGet config "value").getD (PyVal.vInt 60)
    let unit := (dictGet config "unit").getD (PyVal.vStr "minutes")
    match unit with
    | PyVal.vStr u =>
      match pyNum value with
      | some n => mkIntervalTrigger u n
      | none => none
    | _ => none
  else if action.schedule_type == "once" then
    match pyOr (dictGet config "datetime") (dictGet config "run_at") with
    | some v =>
      if pyTruthy v then
        match v with
        | PyVal.vStr dt_str =>
          match ext.parseISO (dt_str.replace "Z" "+00:00") with
          | some t => some (Trigger.date t)
          | none => none
        | _ => none
      else none
    | none => none
  else none

/-- An APScheduler job as registered by `add_job` in `_schedule_action`:
    the callback argument (`args=[action.id]`), the display name, and the
    timer subsystem's next-fire instant. -/
structure Job where
  action_id : String
  name : String
  next_run_time : Option Nat
deriving DecidableEq, Repr

/-- The APScheduler job registry, keyed by job id. -/
abbrev Jobs := List (String × Job)

/-- `scheduler.add_job(..., id=jid, replace_existing=True)`: any prior job
    with the same id is replaced. -/
def add_job (jobs : Jobs) (jid : String) (j : Job) : Jobs :=
  (jobs.filter (fun p => p.1 != jid)) ++ [(jid, j)]

/-- `scheduler.remove_job(jid)` (a missing job raises `JobLookupError`,
    which every caller catches; the registry is unchanged in that case). -/
def remove_job (jobs : Jobs) (jid : String) : Jobs :=
  jobs.filter (fun p => p.1 != jid)

/-- `scheduler.get_job(jid)`. -/
def get_job (jobs : Jobs) (jid : String) : Option Job :=
  (jobs.find? (fun p => p.1 == jid)).map (fun p => p.2)

/-- Combined state of the scheduler service: the repository database, the
    APScheduler job registry, and `self.job_map`. -/
structure SchedState where
  db : DB
  jobs : Jobs
  job_map : List (String × String)
deriving DecidableEq, Repr

/-- `SchedulerService._schedule_action` (services/scheduler.py:83).
    `writeOk = false` models the advisory run-times write raising a storage
    error, which the surrounding `except` at scheduler.py:118 swallows after
    the job has already been registered. -/
def schedule_action (env : SchedEnv) (writeOk : Bool) (st : SchedState)
    (action : ScheduledActionModel) (now : Nat) : SchedState :=
  match create_trigger env action with
  | none => st
  | some trigger =>
    let jid := "action_" ++ action.id
    let job : Job :=
      { action_id := action.id, name := action.name, next_run_time := env.nextFire trigger }
    let st1 : SchedState :=
      { st with
        jobs := add_job st.jobs jid job,
        job_map := (st.job_map.filter (fun p => p.1 != action.id)) ++ [(action.id, jid)] }
    match job.next_run_time with
    | some t =>
      if writeOk then
        { st1 with
          db := (update_scheduled_action_run_times st1.db action.id
                  (action.last_run_at.getD 0) (some t) now).1 }
      else st1
    | none => st1

/-- `SchedulerService.reload_jobs` (services/scheduler.py:67): drop every
    job and the job map, then schedule each enabled action from a fresh
    repository snapshot. -/
def reload_jobs (env : SchedEnv) (writeOk : String → Bool) (st : SchedState)
    (now : Nat) : SchedState :=
  let st0 : SchedState := { st with jobs := [], job_map := [] }
  let actions := get_enabled_scheduled_actions st0.db
  actions.foldl (fun s a => schedule_action env (writeOk a.id) s a now) st0

/-- The outcome dict `{"status": "error", "message": msg}`. -/
def errorOutcome (msg : String) : Dict :=
  [("status", PyVal.vStr "error"), ("message", PyVal.vStr msg)]

/-- Body of the `try` block of `SchedulerService.execute_action`
    (services/scheduler.py:223-250); an `Except.error` is an exception
    reaching the outermost `except` of `execute_action`.  The completion
    notification (`_send_completion_notification`) catches every exception
    internally and changes none of the modelled state, so it contributes
    nothing here. -/
def execute_action_body (env : SchedEnv) (st : SchedState)
    (action : ScheduledActionModel) (now : Nat) :
    Except String (SchedState × Dict) :=
  if env.hasExecutor action.action_type then
    match env.runExecutor action.user_id action.action_config with
    | Except.error e => Except.error e
    | Except.ok result =>
      match dictGet result "chat_id" with
      | some cv =>
        if pyTruthy cv then
          match env.configWriteFails with
          | some e => Except.error e
          | none =>
            let updated_config := dictSet action.action_config "chat_id" cv
            Except.ok
              ({ st with
                 db := (update_scheduled_action_by_id st.db action.id
                         { action_config := some updated_config } now).1 },
               result)
        else Except.ok (st, result)
      | none => Except.ok (st, result)
  else
    Except.ok (st, errorOutcome ("No executor found for action type: " ++ action.action_type))

/-- `SchedulerService.execute_action` (services/scheduler.py:216): the body
    wrapped in the outermost `try`/`except`, which converts any exception
    into `{"status": "error", "message": str(e)}`. -/
def execute_action (env : SchedEnv) (st : SchedState)
    (action : ScheduledActionModel) (now : Nat) : SchedState × Dict :=
  match execute_action_body env st action now with
  | Except.ok r => r
  | Except.error e => (st, errorOutcome e)

/-- Observable events of one timer fire, in order of occurrence. -/
inductive Ev where
  | removed_orphan (job_id : String)
  | skipped_disabled (action_id : String)
  | executed (action_id : String) (outcome : Dict)
  | updated_run_times (action_id : String) (last_run_at : Nat) (next_run_at : Option Nat)
  | set_enabled_false (action_id : String)
deriving DecidableEq, Repr

/-- `SchedulerService._execute_action_wrapper` (services/scheduler.py:178):
    the callback run on a timer fire, returning the new state and the trace
    of events of this fire. -/
def execute_action_wrapper (env : SchedEnv) (st : SchedState)
    (action_id : String) (now : Nat) : SchedState × List Ev :=
  match get_scheduled_action_by_id st.db action_id with
  | none =>
    ({ st with jobs := remove_job st.jobs ("action_" ++ action_id) },
     [Ev.removed_orphan ("action_" ++ action_id)])
  | some action =>
    if action.enabled then
      let pr := execute_action env st action now
      let st1 := pr.1
      let current_time := now
      let next_run_at := (get_job st1.jobs ("action_" ++ action_id)).bind
        (fun j => j.next_run_time)
      let st2 : SchedState :=
        { st1 with
          db := (update_scheduled_action_run_times st1.db action_id
                  current_time next_run_at now).1 }
      let evs := [Ev.executed action_id pr.2,
                  Ev.updated_run_times action_id current_time next_run_at]
      if action.schedule_type == "once" then
        let st3 : SchedState :=
          { st2 with
            db := (update_scheduled_action_by_id st2.db action_id
                    { enabled := some false } now).1 }
        (st3, evs ++ [Ev.set_enabled_false action_id])
      else (st2, evs)
    else (st, [Ev.skipped_disabled action_id])

/-- The number of jobs registered under a given job id. -/
def countKey (jobs : Jobs) (k : String) : Nat :=
  (jobs.filter (fun p => p.1 == k)).length

/-- The timer-set invariant: at most one live timer per job id. -/
def timersUnique (jobs : Jobs) : Prop :=
  ∀ k, countKey jobs k ≤ 1

/-- The primitive mutations of the APScheduler job registry performed by the
    scheduler: `remove_all_jobs()` (start of a reload), `add_job(...,
    replace_existing=True)` (one reconciliation step), and `remove_job`
    (orphan removal during a fire).  asyncio interleaves `reload()` calls
    and fires only between these atomic mutations, so an arbitrary
    interleaving acts on the registry as an arbitrary sequence of these
    operations. -/
inductive SchedOp where
  | removeAll
  | addOne (jid : String) (j : Job)
  | removeOne (jid : String)

/-- Effect of one primitive mutation on the job registry. -/
def applyOp (jobs : Jobs) : SchedOp → Jobs
  | .removeAll => []
  | .addOne jid j => add_job jobs jid j
  | .removeOne jid => remove_job jobs jid

/-- Effect of a sequence of primitive mutations. -/
def applyOps (jobs : Jobs) (ops : List SchedOp) : Jobs :=
  ops.foldl applyOp jobs

/-- Effect of one `_schedule_action` call on `(jobs, job_map)` alone; this
    pair evolves independently of the database. -/
def schedJM (env : SchedEnv) (a : ScheduledActionModel) :
    Jobs × List (String × String) → Jobs × List (String × String) :=
  fun p =>
    match create_trigger env a with
    | none => p
    | some trigger =>
      (add_job p.1 ("action_" ++ a.id)
        { action_id := a.id, name := a.name, next_run_time := env.nextFire trigger },
       (p.2.filter (fun q => q.1 != a.id)) ++ [(a.id, "action_" ++ a.id)])

/-- A concrete environment used to evaluate the model on sample inputs:
    only the default cron expression validates, every trigger's next fire
    is instant 50, only the `notification` executor exists, and the
    executor reports success with correlation id `c9`. -/
def envW : SchedEnv where
  isValidCron := fun s => s == "0 9 * * *"
  parseISO := fun _ => some 1000
  nextFire := fun _ => some 50
  hasExecutor := fun t => t == "notification"
  runExecutor := fun _ _ =>
    Except.ok [("status", PyVal.vStr "success"), ("chat_id", PyVal.vStr "c9")]

/-- A concrete environment whose executor invocation raises. -/
def envBoom : SchedEnv where
  isValidCron := fun _ => true
  parseISO := fun _ => some 1000
  nextFire := fun _ => some 50
  hasExecutor := fun _ => true
  runExecutor := fun _ _ => Except.error "boom"

/-- Sample one-shot action with a stale stored `next_run_at`. -/
def aOnce : ScheduledActionModel :=
  { id := "a1", user_id := "u", name := "n", action_type := "notification",
    action_config := [("k", PyVal.vStr "v")], schedule_type := "once",
    schedule_config := [("datetime", PyVal.vStr "2025-01-01T00:00:00Z")],
    next_run_at := some 5 }

/-- Sample interval action that has never run (`last_run_at = none`). -/
def aIv : ScheduledActionModel :=
  { id := "a1", user_id := "u", name := "n", action_type := "notification",
    action_config := [("k", PyVal.vStr "v")], schedule_type := "interval",
    schedule_config := [("value", PyVal.vInt 5), ("unit", PyVal.vStr "minutes")] }

/-- Sample cron action with a three-field expression. -/
def aCronBad : ScheduledActionModel :=
  { id := "bad", user_id := "u", name := "b", action_type := "notification",
    action_config := [], schedule_type := "cron",
    schedule_config := [("expression", PyVal.vStr "x y z")] }

/-- Sample cron action whose `schedule_config` has no `expression` key. -/
def aCronDef : ScheduledActionModel :=
  { id := "c1", user_id := "u", name := "c", action_type := "notification",
    action_config := [], schedule_type := "cron", schedule_config := [] }

/-- Sample state: one enabled one-shot action, empty job registry. -/
def stOnce : SchedState := { db := [aOnce], jobs := [], job_map := [] }

/-- Sample state: one never-run interval action, empty job registry. -/
def stIv : SchedState := { db := [aIv], jobs := [], job_map := [] }

/-- Sample state holding the bad cron action next to a good interval action. -/
def stMixed : SchedState := { db := [aCronBad, aIv], jobs := [], job_map := [] }

/-- Sample state holding only the good interval action. -/
def stGood : SchedState := { db := [aIv], jobs := [], job_map := [] }

/-- Sample job registered under id `action_a1`. -/
def jW : Job := { action_id := "a1", name := "n", next_run_time := some 50 }

/-- Sample disabled action. -/
def aDis : ScheduledActionModel := { aIv with enabled := false }

/-- Sample state: one disabled action in the repository. -/
def stDis : SchedState := { db := [aDis], jobs := [], job_map := [] }

/-- Sample state: a live timer whose action no longer exists. -/
def stOrphan : SchedState :=
  { db := [], jobs := [("action_a1", jW)], job_map := [("a1", "action_a1")] }

theorem countKey_nil (k : String) : countKey [] k = 0 := rfl

theorem countKey_cons (p : String × Job) (rest : Jobs) (k : String) :
    countKey (p :: rest) k = (if p.1 = k then 1 else 0) + countKey rest k := by
  unfold countKey
  rw [List.filter_cons]
  by_cases h : p.1 = k <;> simp [h, Nat.add_comm]

theorem countKey_append (l1 l2 : Jobs) (k : String) :
    countKey (l1 ++ l2) k = countKey l1 k + countKey l2 k := by
  unfold countKey
  rw [List.filter_append, List.length_append]

theorem countKey_filter_ne (jobs : Jobs) (jid k : String) :
    countKey (jobs.filter (fun p => p.1 != jid)) k
      = if k = jid then 0 else countKey jobs k := by
  induction jobs with
  | nil => by_cases h : k = jid <;> simp [countKey, h]
  | cons p rest ih =>
    by_cases h1 : p.1 = jid
    · have hd : List.filter (fun q => q.1 != jid) (p :: rest)
          = List.filter (fun q => q.1 != jid) rest := by
        simp [List.filter_cons, h1]
      rw [hd, ih]
      by_cases h2 : k = jid
      · simp [h2]
      · have hpk : ¬ p.1 = k := fun hc => h2 (by rw [← hc, h1])
        simp [h2, countKey_cons, hpk]
    · have hd : List.filter (fun q => q.1 != jid) (p :: rest)
          = p :: List.filter (fun q => q.1 != jid) rest := by
        simp [List.filter_cons, h1]
      rw [hd, countKey_cons, ih, countKey_cons]
      by_cases h2 : k = jid
      · have hpk : ¬ p.1 = k := by rw [h2]; exact h1
        simp [h2, hpk, h1]
      · simp [h2]

theorem countKey_add_job (jobs : Jobs) (jid : String) (j : Job) (k : String) :
    countKey (add_job jobs jid j) k = if k = jid then 1 else countKey jobs k := by
  unfold add_job
  rw [countKey_append, countKey_filter_ne, countKey_cons, countKey_nil]
  by_cases h : k = jid
  · simp [h]
  · have : ¬ jid = k := fun hc => h hc.symm
    simp [h, this]

theorem countKey_remove_job (jobs : Jobs) (jid k : String) :
    countKey (remove_job jobs jid) k = if k = jid then 0 else countKey jobs k := by
  unfold remove_job
  exact countKey_filter_ne jobs jid k

theorem timersUnique_applyOp (jobs : Jobs) (op : SchedOp)
    (h : timersUnique jobs) : timersUnique (applyOp jobs op) := by
  intro k
  cases op with
  | removeAll => simp [applyOp, countKey]
  | addOne jid j =>
    rw [applyOp, countKey_add_job]
    by_cases hk : k = jid
    · simp [hk]
    · simp [hk]; exact h k
  | removeOne jid =>
    rw [applyOp, countKey_remove_job]
    by_cases hk : k = jid
    · simp [hk]
    · simp [hk]; exact h k

theorem timersUnique_applyOps (jobs : Jobs) (ops : List SchedOp)
    (h : timersUnique jobs) : timersUnique (applyOps jobs ops) := by
  induction ops generalizing jobs with
  | nil => exact h
  | cons op rest ih =>
    rw [applyOps, List.foldl_cons]
    exact ih (applyOp jobs op) (timersUnique_applyOp jobs op h)

theorem schedule_action_jm (env : SchedEnv) (w : Bool) (st : SchedState)
    (a : ScheduledActionModel) (now : Nat) :
    ((schedule_action env w st a now).jobs, (schedule_action env w st a now).job_map)
      = schedJM env a (st.jobs, st.job_map) := by
  unfold schedule_action schedJM
  cases htr : create_trigger env a with
  | none => rfl
  | some trigger =>
    simp only
    cases hnf : env.nextFire trigger with
    | none => rfl
    | some t => cases w <;> rfl

theorem schedule_action_jm_of_none (env : SchedEnv) (a : ScheduledActionModel)
    (h : create_trigger env a = none) (p : Jobs × List (String × String)) :
    schedJM env a p = p := by
  unfold schedJM
  rw [h]

theorem schedule_action_of_none (env : SchedEnv) (w : Bool) (st : SchedState)
    (a : ScheduledActionModel) (now : Nat)
    (h : create_trigger env a = none) :
    schedule_action env w st a now = st := by
  unfold schedule_action
  rw [h]

theorem foldl_schedule_action_jm (env : SchedEnv) (w : String → Bool) (now : Nat)
    (acts : List ScheduledActionModel) (st : SchedState) :
    (((acts.foldl (fun s a => schedule_action env (w a.id) s a now) st).jobs),
     ((acts.foldl (fun s a => schedule_action env (w a.id) s a now) st).job_map))
      = acts.foldl (fun p a => schedJM env a p) (st.jobs, st.job_map) := by
  induction acts generalizing st with
  | nil => rfl
  | cons a rest ih =>
    rw [List.foldl_cons, List.foldl_cons, ih, schedule_action_jm]

theorem reload_jobs_jm (env : SchedEnv) (w : String → Bool) (st : SchedState)
    (now : Nat) :
    ((reload_jobs env w st now).jobs, (reload_jobs env w st now).job_map)
      = (get_enabled_scheduled_actions st.db).foldl
          (fun p a => schedJM env a p) ([], []) := by
  unfold reload_jobs
  exact foldl_schedule_action_jm env w now (get_enabled_scheduled_actions st.db)
    { st with jobs := [], job_map := [] }

theorem execute_action_body_ok_spec (env : SchedEnv) (st : SchedState)
    (a : ScheduledActionModel) (now : Nat) (r : SchedState × Dict)
    (h : execute_action_body env st a now = Except.ok r) :
    r.1.jobs = st.jobs ∧ r.1.job_map = st.job_map
      ∧ (r.1.db = st.db
         ∨ ∃ cfg, r.1.db = (update_scheduled_action_by_id st.db a.id
              { action_config := some cfg } now).1) := by
  unfold execute_action_body at h
  split at h
  · split at h
    · exact absurd h (by simp)
    · split at h
      · split at h
        · split at h
          · exact absurd h (by simp)
          · cases h
            exact ⟨rfl, rfl, Or.inr ⟨_, rfl⟩⟩
        · cases h
          exact ⟨rfl, rfl, Or.inl rfl⟩
      · cases h
        exact ⟨rfl, rfl, Or.inl rfl⟩
  · cases h
    exact ⟨rfl, rfl, Or.inl rfl⟩

theorem execute_action_spec (env : SchedEnv) (st : SchedState)
    (a : ScheduledActionModel) (now : Nat) :
    (execute_action env st a now).1.jobs = st.jobs
      ∧ (execute_action env st a now).1.job_map = st.job_map
      ∧ ((execute_action env st a now).1.db = st.db
         ∨ ∃ cfg, (execute_action env st a now).1.db
              = (update_scheduled_action_by_id st.db a.id
                  { action_config := some cfg } now).1) := by
  unfold execute_action
  cases hb : execute_action_body env st a now with
  | ok r => exact execute_action_body_ok_spec env st a now r hb
  | error e => exact ⟨rfl, rfl, Or.inl rfl⟩

theorem get_some_id (db : DB) (id : String) (a : ScheduledActionModel)
    (h : get_scheduled_action_by_id db id = some a) : a.id = id := by
  unfold get_scheduled_action_by_id at h
  have := List.find?_some h
  exact of_decide_eq_true (by simpa using this)

theorem dbUpdateFirst_of_not_found (db : DB) (id : String)
    (f : ScheduledActionModel → ScheduledActionModel)
    (h : get_scheduled_action_by_id db id = none) :
    dbUpdateFirst db id f = db := by
  induction db with
  | nil => rfl
  | cons a rest ih =>
    unfold get_scheduled_action_by_id at h ih
    rw [List.find?_cons] at h
    rw [dbUpdateFirst]
    cases hbe : (a.id == id) with
    | true => rw [hbe] at h; exact absurd h (by simp)
    | false =>
      rw [hbe] at h
      rw [if_neg (by decide : ¬ false = true)]
      rw [ih h]

theorem get_dbUpdateFirst (db : DB) (id0 : String)
    (f : ScheduledActionModel → ScheduledActionModel)
    (hf : ∀ x, (f x).id = x.id) (id : String) :
    get_scheduled_action_by_id (dbUpdateFirst db id0 f) id
      = if id0 = id then (get_scheduled_action_by_id db id).map f
        else get_scheduled_action_by_id db id := by
  induction db with
  | nil =>
    by_cases h : id0 = id <;> simp [dbUpdateFirst, get_scheduled_action_by_id, h]
  | cons a rest ih =>
    rw [dbUpdateFirst]
    cases hbe : (a.id == id0) with
    | true =>
      have ha : a.id = id0 := by simpa using hbe
      rw [if_pos (rfl : true = true)]
      unfold get_scheduled_action_by_id
      rw [List.find?_cons, List.find?_cons]
      by_cases h : id0 = id
      · have h1 : ((f a).id == id) = true := by simp [hf a, ha, h]
        have h2 : (a.id == id) = true := by simp [ha, h]
        rw [h1, h2, if_pos h]
        rfl
      · have h1 : ((f a).id == id) = false := by simp [hf a, ha]; exact h
        have h2 : (a.id == id) = false := by simp [ha]; exact h
        rw [h1, h2, if_neg h]
    | false =>
      have ha : ¬ a.id = id0 := by simpa using hbe
      rw [if_neg (by decide : ¬ false = true)]
      unfold get_scheduled_action_by_id
      rw [List.find?_cons, List.find?_cons]
      cases hbi : (a.id == id) with
      | true =>
        have hai : a.id = id := by simpa using hbi
        have h0 : ¬ id0 = id := fun hc => ha (by rw [hc, hai])
        rw [if_neg h0]
      | false =>
        unfold get_scheduled_action_by_id at ih
        by_cases h : id0 = id
        · rw [if_pos h] at ih
          rw [if_pos h, ih]
        · rw [if_neg h] at ih
          rw [if_neg h, ih]

theorem update_by_id_fst (db : DB) (id : String)
    (form : ScheduledActionUpdateForm) (now : Nat) :
    (update_scheduled_action_by_id db id form now).1
      = dbUpdateFirst db id (fun x => applyUpdateForm x form now) := by
  unfold update_scheduled_action_by_id
  cases h : get_scheduled_action_by_id db id with
  | none => exact (dbUpdateFirst_of_not_found db id _ h).symm
  | some a0 => rfl

theorem update_run_times_fst (db : DB) (id : String)
    (last : Nat) (next : Option Nat) (now : Nat) :
    (update_scheduled_action_run_times db id last next now).1
      = dbUpdateFirst db id (runTimesUpd last next now) := by
  unfold update_scheduled_action_run_times
  cases h : get_scheduled_action_by_id db id with
  | none => exact (dbUpdateFirst_of_not_found db id _ h).symm
  | some a0 => rfl

theorem applyUpdateForm_id (a : ScheduledActionModel)
    (form : ScheduledActionUpdateForm) (now : Nat) :
    (applyUpdateForm a form now).id = a.id := by
  unfold applyUpdateForm
  cases form.name <;> cases form.description <;> cases form.action_config <;>
    cases form.schedule_type <;> cases form.schedule_config <;> cases form.enabled <;> rfl

theorem runTimesUpd_id (last : Nat) (next : Option Nat) (now : Nat)
    (a : ScheduledActionModel) : (runTimesUpd last next now a).id = a.id := rfl

theorem find?_append_none {α : Type} (l1 l2 : List α) (p : α → Bool)
    (h : l1.find? p = none) : (l1 ++ l2).find? p = l2.find? p := by
  induction l1 with
  | nil => rfl
  | cons x rest ih =>
    rw [List.find?_cons] at h
    rw [List.cons_append, List.find?_cons]
    cases hp : p x with
    | true => rw [hp] at h; exact absurd h (by simp)
    | false =>
      rw [hp] at h
      exact ih h

theorem assoc_find_filter_self {α : Type} (l : List (String × α)) (k : String) :
    List.find? (fun p => p.1 == k) (l.filter (fun p => p.1 != k)) = none := by
  induction l with
  | nil => rfl
  | cons x rest ih =>
    rw [List.filter_cons]
    cases hbe : (x.1 == k) with
    | true =>
      have : (x.1 != k) = false := by simp [bne]; simpa using hbe
      rw [this, if_neg (by decide : ¬ false = true)]
      exact ih
    | false =>
      have : (x.1 != k) = true := by simp [bne, hbe]
      rw [this, if_pos rfl, List.find?_cons, hbe]
      exact ih

theorem assoc_find_filter_other {α : Type} (l : List (String × α)) (k k' : String)
    (h : ¬ k' = k) :
    List.find? (fun p => p.1 == k') (l.filter (fun p => p.1 != k))
      = List.find? (fun p => p.1 == k') l := by
  induction l with
  | nil => rfl
  | cons x rest ih =>
    rw [List.filter_cons, List.find?_cons]
    cases hbe : (x.1 == k) with
    | true =>
      have hx : x.1 = k := by simpa using hbe
      have : (x.1 != k) = false := by simp [bne]; simpa using hbe
      rw [this, if_neg (by decide : ¬ false = true)]
      have : (x.1 == k') = false := by
        simp only [beq_eq_false_iff_ne, ne_eq, hx]
        exact fun hc => h hc.symm
      rw [this]
      exact ih
    | false =>
      have : (x.1 != k) = true := by simp [bne, hbe]
      rw [this, if_pos rfl, List.find?_cons]
      cases hbi : (x.1 == k') with
      | true => rfl
      | false => exact ih

theorem get_job_add_job_same (jobs : Jobs) (jid : String) (j : Job) :
    get_job (add_job jobs jid j) jid = some j := by
  unfold get_job add_job
  rw [find?_append_none _ _ _ (assoc_find_filter_self jobs jid)]
  simp [List.find?_cons]

theorem get_job_remove_job_same (jobs : Jobs) (jid : String) :
    get_job (remove_job jobs jid) jid = none := by
  unfold get_job remove_job
  rw [assoc_find_filter_self jobs jid]
  rfl

theorem dictGet_dictSet_same (d : Dict) (k : String) (v : PyVal) :
    dictGet (dictSet d k v) k = some v := by
  unfold dictGet dictSet
  rw [find?_append_none _ _ _ (assoc_find_filter_self d k)]
  simp [List.find?_cons]

theorem dictGet_dictSet_other (d : Dict) (k : String) (v : PyVal) (k' : String)
    (h : ¬ k' = k) : dictGet (dictSet d k v) k' = dictGet d k' := by
  unfold dictGet dictSet
  have hk : (k == k') = false := by
    simp only [beq_eq_false_iff_ne, ne_eq]
    exact fun hc => h hc.symm
  have hfind : List.find? (fun p => p.1 == k') (d.filter (fun p => p.1 != k) ++ [(k, v)])
      = List.find? (fun p => p.1 == k') (d.filter (fun p => p.1 != k)) := by
    induction d.filter (fun p => p.1 != k) with
    | nil => simp [List.find?_cons, hk]
    | cons x rest ih =>
      rw [List.cons_append, List.find?_cons, List.find?_cons]
      cases hbi : (x.1 == k') with
      | true => rfl
      | false => exact ih
  rw [hfind, assoc_find_filter_other d k k' h]

theorem applyOps_append (jobs : Jobs) (ops1 ops2 : List SchedOp) :
    applyOps jobs (ops1 ++ ops2) = applyOps (applyOps jobs ops1) ops2 := by
  unfold applyOps
  exact List.foldl_append _ _ _ _

theorem schedJM_fst_cases (env : SchedEnv) (a : ScheduledActionModel)
    (p : Jobs × List (String × String)) :
    (schedJM env a p).1 = p.1 ∨ ∃ jid j, (schedJM env a p).1 = add_job p.1 jid j := by
  unfold schedJM
  cases htr : create_trigger env a with
  | none => exact Or.inl rfl
  | some trigger => exact Or.inr ⟨_, _, rfl⟩

theorem foldl_schedJM_ops (env : SchedEnv) (acts : List ScheduledActionModel) :
    ∀ p : Jobs × List (String × String),
      ∃ ops, (acts.foldl (fun q a => schedJM env a q) p).1 = applyOps p.1 ops := by
  induction acts with
  | nil => exact fun p => ⟨[], rfl⟩
  | cons a rest ih =>
    intro p
    rw [List.foldl_cons]
    obtain ⟨ops2, h2⟩ := ih (schedJM env a p)
    cases schedJM_fst_cases env a p with
    | inl h1 =>
      refine ⟨ops2, ?_⟩
      rw [h2, h1]
    | inr h1 =>
      obtain ⟨jid, j, h1⟩ := h1
      refine ⟨SchedOp.addOne jid j :: ops2, ?_⟩
      rw [h2, h1]
      rfl

theorem execute_action_wrapper_jobs_cases (env : SchedEnv) (st : SchedState)
    (id : String) (now : Nat) :
    (execute_action_wrapper env st id now).1.jobs = st.jobs
      ∨ (execute_action_wrapper env st id now).1.jobs
          = remove_job st.jobs ("action_" ++ id) := by
  unfold execute_action_wrapper
  split
  · exact Or.inr rfl
  · rename_i action heq
    by_cases hen : action.enabled = true
    · rw [if_pos hen]
      by_cases honce : (action.schedule_type == "once") = true
      · rw [if_pos honce]
        exact Or.inl (execute_action_spec env st action now).1
      · rw [if_neg honce]
        exact Or.inl (execute_action_spec env st action now).1
    · rw [if_neg hen]
      exact Or.inl rfl

/-- C10: for a cron-type `schedule_config` without an `expression` key,
    `_create_trigger` does not fail: it substitutes the default expression
    `0 9 * * *` (daily at 09:00) and produces the corresponding cron
    trigger (croniter accepts the default expression). -/
theorem cron_missing_expression_defaults (env : SchedEnv) (a : ScheduledActionModel)
    (hty : a.schedule_type = "cron")
    (hmiss : dictGet a.schedule_config "expression" = none)
    (hvalid : env.isValidCron "0 9 * * *" = true) :
    create_trigger env a = some (Trigger.cron "0" "9" "*" "*" "*") := by
  simp only [create_trigger, hty, hmiss, Option.getD_none, hvalid]
  rfl

/-- Witness for C10 at a concrete action and environment. -/
theorem cron_missing_expression_defaults_witness :
    create_trigger envW aCronDef = some (Trigger.cron "0" "9" "*" "*" "*") :=
  cron_missing_expression_defaults envW aCronDef rfl rfl (by decide)

/-- C7: for an interval-type `schedule_config`, a missing `value` defaults
    to 60 and a missing `unit` defaults to `minutes`; with a recognized unit
    (seconds, minutes, hours, days, weeks) the Trigger Calculator produces
    the interval trigger firing every `value` units, and with an
    unrecognized unit it produces no trigger. -/
theorem interval_defaults_and_units (env : SchedEnv) (a : ScheduledActionModel)
    (hty : a.schedule_type = "interval") :
    (dictGet a.schedule_config "value" = none →
       dictGet a.schedule_config "unit" = none →
       create_trigger env a = some (Trigger.interval "minutes" 60))
    ∧ (∀ v : Int, dictGet a.schedule_config "value" = some (PyVal.vInt v) →
       dictGet a.schedule_config "unit" = none →
       create_trigger env a = some (Trigger.interval "minutes" v))
    ∧ (∀ u : String, dictGet a.schedule_config "value" = none →
       dictGet a.schedule_config "unit" = some (PyVal.vStr u) →
       create_trigger env a
         = if intervalUnits.contains u then some (Trigger.interval u 60) else none)
    ∧ (∀ (v : Int) (u : String),
       dictGet a.schedule_config "value" = some (PyVal.vInt v) →
       dictGet a.schedule_config "unit" = some (PyVal.vStr u) →
       create_trigger env a
         = if intervalUnits.contains u then some (Trigger.interval u v) else none) := by
  refine ⟨?_, ?_, ?_, ?_⟩
  · intro hv hu
    simp only [create_trigger, hty, hv, hu, Option.getD_none]
    rfl
  · intro v hv hu
    simp only [create_trigger, hty, hv, hu, Option.getD_none, Option.getD_some]
    rfl
  · intro u hv hu
    simp only [create_trigger, hty, hv, hu, Option.getD_none, Option.getD_some]
    rfl
  · intro v u hv hu
    simp only [create_trigger, hty, hv, hu, Option.getD_some]
    rfl

/-- Witness for C7 at concrete interval configurations. -/
theorem interval_defaults_and_units_witness :
    create_trigger envW
        { aIv with schedule_config := [] } = some (Trigger.interval "minutes" 60)
    ∧ create_trigger envW aIv = some (Trigger.interval "minutes" 5)
    ∧ create_trigger envW
        { aIv with schedule_config := [("unit", PyVal.vStr "jitter")] } = none :=
  ⟨(interval_defaults_and_units envW { aIv with schedule_config := [] } rfl).1 rfl rfl,
   by
    have h := (interval_defaults_and_units envW aIv rfl).2.2.2 5 "minutes" rfl rfl
    rw [h]
    rfl,
   by
    have h := (interval_defaults_and_units envW
      { aIv with schedule_config := [("unit", PyVal.vStr "jitter")] } rfl).2.2.1
      "jitter" rfl rfl
    rw [h]
    rfl⟩

/-- C4: every exception raised inside the execution chain of
    `execute_action` (in the model: a raising executor invocation or a
    raising `action_config` merge-write, surfaced as an `Except.error` of
    `execute_action_body`) is caught at the outermost boundary and converted
    into the returned outcome `{status: "error", message: e}`; `execute_action`
    always returns a plain outcome, never propagating the exception. -/
theorem execute_action_catches_exceptions (env : SchedEnv) (st : SchedState)
    (a : ScheduledActionModel) (now : Nat) (e : String)
    (he : execute_action_body env st a now = Except.error e) :
    execute_action env st a now = (st, errorOutcome e)
    ∧ dictGet (execute_action env st a now).2 "status" = some (PyVal.vStr "error")
    ∧ dictGet (execute_action env st a now).2 "message" = some (PyVal.vStr e) := by
  unfold execute_action
  rw [he]
  exact ⟨rfl, rfl, rfl⟩

/-- Witness for C4: a concrete raising executor. -/
theorem execute_action_catches_exceptions_witness :
    execute_action envBoom stIv aIv 7 = (stIv, errorOutcome "boom")
    ∧ dictGet (execute_action envBoom stIv aIv 7).2 "status"
        = some (PyVal.vStr "error")
    ∧ dictGet (execute_action envBoom stIv aIv 7).2 "message"
        = some (PyVal.vStr "boom") :=
  execute_action_catches_exceptions envBoom stIv aIv 7 "boom" rfl

/-- C3: on a timer fire, a missing action makes the wrapper remove the
    orphaned live timer and stop without executing or erroring, and an
    existing but disabled action makes it skip execution without error and
    without touching any state. -/
theorem fire_missing_or_disabled (env : SchedEnv) (st : SchedState)
    (id : String) (now : Nat) :
    (get_scheduled_action_by_id st.db id = none →
       execute_action_wrapper env st id now
         = ({ st with jobs := remove_job st.jobs ("action_" ++ id) },
            [Ev.removed_orphan ("action_" ++ id)])
       ∧ get_job (execute_action_wrapper env st id now).1.jobs ("action_" ++ id)
           = none)
    ∧ (∀ a, get_scheduled_action_by_id st.db id = some a → a.enabled = false →
        execute_action_wrapper env st id now = (st, [Ev.skipped_disabled id])) := by
  constructor
  · intro h
    unfold execute_action_wrapper
    rw [h]
    exact ⟨rfl, get_job_remove_job_same st.jobs ("action_" ++ id)⟩
  · intro a h hdis
    unfold execute_action_wrapper
    split
    · rename_i heq
      rw [h] at heq
      exact absurd heq (by simp)
    · rename_i action heq
      rw [h] at heq
      injection heq with heq'
      subst heq'
      have hne : ¬ a.enabled = true := by rw [hdis]; decide
      rw [if_neg hne]

/-- Witness for C3: an orphaned timer is removed; a disabled action is
    skipped with no state change. -/
theorem fire_missing_or_disabled_witness :
    (execute_action_wrapper envW stOrphan "a1" 9
       = ({ stOrphan with jobs := remove_job stOrphan.jobs "action_a1" },
          [Ev.removed_orphan "action_a1"])
     ∧ get_job (execute_action_wrapper envW stOrphan "a1" 9).1.jobs "action_a1"
         = none)
    ∧ execute_action_wrapper envW stDis "a1" 9 = (stDis, [Ev.skipped_disabled "a1"]) :=
  ⟨(fire_missing_or_disabled envW stOrphan "a1" 9).1 rfl,
   (fire_missing_or_disabled envW stDis "a1" 9).2 aDis rfl rfl⟩

/-- Counterexample to C9 as stated: reloading a never-run enabled action
    (`last_run_at = null`) rewrites its stored `last_run_at` to 0 — the
    write-back passes `action.last_run_at or 0` — so `last_run_at` is not
    left unchanged by reload. -/
theorem reload_rewrites_null_last_run :
    (get_scheduled_action_by_id stIv.db "a1").map (fun x => x.last_run_at)
      = some none
    ∧ (get_scheduled_action_by_id
          (reload_jobs envW (fun _ => true) stIv 77).db "a1").map
        (fun x => x.last_run_at) = some (some 0) := by
  exact ⟨rfl, rfl⟩

/-- C9 amended: for every action armed during reload, the opportunistic
    write-back touches only the run-time bookkeeping of that action —
    `next_run_at` receives the computed next-fire instant, `last_run_at` is
    rewritten with its existing value when present and with 0 when it was
    null, `updated_at` is refreshed, and no other field changes — and a
    failing or skipped advisory write leaves the database untouched while
    the timer remains armed. -/
theorem reload_writeback_advisory (env : SchedEnv) (w : Bool) (st : SchedState)
    (a : ScheduledActionModel) (now : Nat) (trigger : Trigger)
    (htr : create_trigger env a = some trigger) :
    get_job (schedule_action env w st a now).jobs ("action_" ++ a.id)
      = some { action_id := a.id, name := a.name,
               next_run_time := env.nextFire trigger }
    ∧ (env.nextFire trigger = none → (schedule_action env w st a now).db = st.db)
    ∧ (w = false → (schedule_action env w st a now).db = st.db)
    ∧ (∀ t, env.nextFire trigger = some t → w = true →
        get_scheduled_action_by_id st.db a.id = some a →
        get_scheduled_action_by_id (schedule_action env w st a now).db a.id
          = some { a with last_run_at := some (a.last_run_at.getD 0),
                          next_run_at := some t, updated_at := now }) := by
  refine ⟨?_, ?_, ?_, ?_⟩
  · unfold schedule_action
    rw [htr]
    cases hnf : env.nextFire trigger with
    | none =>
      simp only [hnf]
      exact get_job_add_job_same st.jobs _ _
    | some t =>
      simp only [hnf]
      cases w
      · simp only [Bool.false_eq_true, if_false]
        exact get_job_add_job_same st.jobs _ _
      · simp only [if_true]
        exact get_job_add_job_same st.jobs _ _
  · intro hnf
    unfold schedule_action
    rw [htr]
    simp only [hnf]
  · intro hw
    subst hw
    unfold schedule_action
    rw [htr]
    cases hnf : env.nextFire trigger with
    | none => simp only [hnf]
    | some t => simp only [hnf, Bool.false_eq_true, if_false]
  · intro t hnf hw hrow
    subst hw
    unfold schedule_action
    rw [htr]
    simp only [hnf, if_true]
    rw [update_run_times_fst]
    rw [get_dbUpdateFirst _ _ _ (fun x => runTimesUpd_id _ _ _ x) a.id]
    rw [if_pos rfl, hrow]
    rfl

/-- Witness for the amended C9 at a concrete action with a stored
    `last_run_at`. -/
theorem reload_writeback_advisory_witness :
    get_job (schedule_action envW true
        { db := [{ aIv with last_run_at := some 9 }], jobs := [], job_map := [] }
        { aIv with last_run_at := some 9 } 77).jobs "action_a1"
      = some { action_id := "a1", name := "n", next_run_time := some 50 }
    ∧ get_scheduled_action_by_id
        (schedule_action envW true
          { db := [{ aIv with last_run_at := some 9 }], jobs := [], job_map := [] }
          { aIv with last_run_at := some 9 } 77).db "a1"
        = some { aIv with last_run_at := some 9, next_run_at := some 50,
                          updated_at := 77 } :=
  ⟨(reload_writeback_advisory envW true
      { db := [{ aIv with last_run_at := some 9 }], jobs := [], job_map := [] }
      { aIv with last_run_at := some 9 } 77 (Trigger.interval "minutes" 5) rfl).1,
   (reload_writeback_advisory envW true
      { db := [{ aIv with last_run_at := some 9 }], jobs := [], job_map := [] }
      { aIv with last_run_at := some 9 } 77 (Trigger.interval "minutes" 5) rfl).2.2.2
     50 rfl rfl rfl⟩

theorem execute_action_db_row (env : SchedEnv) (st : SchedState)
    (a : ScheduledActionModel) (now : Nat)
    (hget : get_scheduled_action_by_id st.db a.id = some a) :
    ∃ a1, get_scheduled_action_by_id (execute_action env st a now).1.db a.id = some a1
      ∧ a1.id = a.id ∧ a1.enabled = a.enabled ∧ a1.last_run_at = a.last_run_at
      ∧ a1.next_run_at = a.next_run_at ∧ a1.schedule_type = a.schedule_type := by
  obtain ⟨hjobs, hjm, hdb⟩ := execute_action_spec env st a now
  cases hdb with
  | inl h =>
    refine ⟨a, ?_, rfl, rfl, rfl, rfl, rfl⟩
    rw [h, hget]
  | inr h =>
    obtain ⟨cfg, h⟩ := h
    refine ⟨applyUpdateForm a { action_config := some cfg } now, ?_, rfl, rfl, rfl, rfl, rfl⟩
    rw [h, update_by_id_fst,
      get_dbUpdateFirst _ _ _ (fun x => applyUpdateForm_id x _ _) a.id,
      if_pos rfl, hget]
    rfl

theorem wrapper_enabled_once_eq (env : SchedEnv) (st : SchedState) (id : String)
    (now : Nat) (a : ScheduledActionModel)
    (hget : get_scheduled_action_by_id st.db id = some a)
    (hen : a.enabled = true) (honce : (a.schedule_type == "once") = true) :
    execute_action_wrapper env st id now
      = ({ (execute_action env st a now).1 with
           db := (update_scheduled_action_by_id
                    (update_scheduled_action_run_times
                      (execute_action env st a now).1.db id now
                      ((get_job (execute_action env st a now).1.jobs
                          ("action_" ++ id)).bind (fun j => j.next_run_time)) now).1
                    id { enabled := some false } now).1 },
         [Ev.executed id (execute_action env st a now).2,
          Ev.updated_run_times id now
            ((get_job (execute_action env st a now).1.jobs ("action_" ++ id)).bind
              (fun j => j.next_run_time)),
          Ev.set_enabled_false id]) := by
  unfold execute_action_wrapper
  split
  · rename_i heq
    rw [hget] at heq
    exact absurd heq (by simp)
  · rename_i action heq
    rw [hget] at heq
    injection heq with h
    subst h
    rw [if_pos hen, if_pos honce]
    rfl

theorem wrapper_enabled_not_once_eq (env : SchedEnv) (st : SchedState) (id : String)
    (now : Nat) (a : ScheduledActionModel)
    (hget : get_scheduled_action_by_id st.db id = some a)
    (hen : a.enabled = true) (honce : ¬ (a.schedule_type == "once") = true) :
    execute_action_wrapper env st id now
      = ({ (execute_action env st a now).1 with
           db := (update_scheduled_action_run_times
                    (execute_action env st a now).1.db id now
                    ((get_job (execute_action env st a now).1.jobs
                        ("action_" ++ id)).bind (fun j => j.next_run_time)) now).1 },
         [Ev.executed id (execute_action env st a now).2,
          Ev.updated_run_times id now
            ((get_job (execute_action env st a now).1.jobs ("action_" ++ id)).bind
              (fun j => j.next_run_time))]) := by
  unfold execute_action_wrapper
  split
  · rename_i heq
    rw [hget] at heq
    exact absurd heq (by simp)
  · rename_i action heq
    rw [hget] at heq
    injection heq with h
    subst h
    rw [if_pos hen, if_neg honce]

/-- C1: on a timer fire of a `once` action whose re-fetched row exists and
    is enabled, the wrapper's trace holds exactly one execution attempt and
    exactly one disable event, the disable coming after the execution (and
    after the bookkeeping write), regardless of the attempt's outcome; the
    stored row ends with `enabled = false`. -/
theorem once_fire_disables_exactly_once (env : SchedEnv) (st : SchedState)
    (id : String) (now : Nat) (a : ScheduledActionModel)
    (hget : get_scheduled_action_by_id st.db id = some a)
    (hen : a.enabled = true)
    (honce : a.schedule_type = "once") :
    ∃ r next,
      (execute_action_wrapper env st id now).2
        = [Ev.executed id r, Ev.updated_run_times id now next,
           Ev.set_enabled_false id]
      ∧ ∃ a2,
          get_scheduled_action_by_id (execute_action_wrapper env st id now).1.db id
            = some a2
          ∧ a2.enabled = false := by
  have hid : a.id = id := get_some_id st.db id a hget
  have honce' : (a.schedule_type == "once") = true := by rw [honce]; decide
  have heqw := wrapper_enabled_once_eq env st id now a hget hen honce'
  refine ⟨(execute_action env st a now).2,
    (get_job (execute_action env st a now).1.jobs ("action_" ++ id)).bind
      (fun j => j.next_run_time), ?_, ?_⟩
  · rw [heqw]
  · have hget' : get_scheduled_action_by_id st.db a.id = some a := by
      rw [hid]; exact hget
    obtain ⟨a1, hga1, hid1, hen1, hlast1, hnext1, hsch1⟩ :=
      execute_action_db_row env st a now hget'
    have hga1' : get_scheduled_action_by_id (execute_action env st a now).1.db id
        = some a1 := by rw [← hid]; exact hga1
    rw [heqw]
    rw [update_by_id_fst, update_run_times_fst]
    rw [get_dbUpdateFirst _ _ _ (fun x => applyUpdateForm_id x _ _) id, if_pos rfl]
    rw [get_dbUpdateFirst _ _ _ (fun x => runTimesUpd_id _ _ _ x) id, if_pos rfl]
    rw [hga1']
    exact ⟨_, rfl, rfl⟩

/-- Witness for C1 at a concrete one-shot action. -/
theorem once_fire_disables_exactly_once_witness :
    ∃ r next,
      (execute_action_wrapper envW stOnce "a1" 100).2
        = [Ev.executed "a1" r, Ev.updated_run_times "a1" 100 next,
           Ev.set_enabled_false "a1"]
      ∧ ∃ a2,
          get_scheduled_action_by_id
              (execute_action_wrapper envW stOnce "a1" 100).1.db "a1"
            = some a2
          ∧ a2.enabled = false :=
  once_fire_disables_exactly_once envW stOnce "a1" 100 aOnce rfl rfl rfl

/-- Counterexample to C5 as stated: after a fire of a one-shot action whose
    consumed timer reports a null next-fire instant, the bookkeeping event
    carries `next_run_at = none`, yet the stored `next_run_at` keeps its
    stale value 5 — the repository's run-time update skips a null
    `next_run_at`, so the null is not persisted. -/
theorem once_fire_null_next_not_persisted :
    (execute_action_wrapper envW stOnce "a1" 100).2
      = [Ev.executed "a1"
           [("status", PyVal.vStr "success"), ("chat_id", PyVal.vStr "c9")],
         Ev.updated_run_times "a1" 100 none,
         Ev.set_enabled_false "a1"]
    ∧ (get_scheduled_action_by_id
          (execute_action_wrapper envW stOnce "a1" 100).1.db "a1").map
        (fun x => x.next_run_at) = some (some 5) := ⟨rfl, rfl⟩

/-- C5 amended: after the execution attempt of an enabled action, the
    wrapper records the bookkeeping write with `last_run_at = now` and the
    timer subsystem's updated next-fire instant, and the stored row ends
    with `last_run_at = now`; the stored `next_run_at` receives the updated
    next-fire instant when it is non-null, and keeps its previous value when
    that instant is null (the null is not persisted). -/
theorem run_times_bookkeeping (env : SchedEnv) (st : SchedState)
    (id : String) (now : Nat) (a : ScheduledActionModel)
    (hget : get_scheduled_action_by_id st.db id = some a)
    (hen : a.enabled = true) :
    Ev.updated_run_times id now
        ((get_job st.jobs ("action_" ++ id)).bind (fun j => j.next_run_time))
      ∈ (execute_action_wrapper env st id now).2
    ∧ ∃ a2,
        get_scheduled_action_by_id (execute_action_wrapper env st id now).1.db id
          = some a2
        ∧ a2.last_run_at = some now
        ∧ a2.next_run_at
            = (match (get_job st.jobs ("action_" ++ id)).bind
                  (fun j => j.next_run_time) with
               | some t => some t
               | none => a.next_run_at) := by
  have hid : a.id = id := get_some_id st.db id a hget
  have hjobs : (execute_action env st a now).1.jobs = st.jobs :=
    (execute_action_spec env st a now).1
  have hget' : get_scheduled_action_by_id st.db a.id = some a := by
    rw [hid]; exact hget
  obtain ⟨a1, hga1, hid1, hen1, hlast1, hnext1, hsch1⟩ :=
    execute_action_db_row env st a now hget'
  have hga1' : get_scheduled_action_by_id (execute_action env st a now).1.db id
      = some a1 := by rw [← hid]; exact hga1
  by_cases honce : (a.schedule_type == "once") = true
  · have heqw := wrapper_enabled_once_eq env st id now a hget hen honce
    rw [heqw, hjobs]
    constructor
    · simp
    · rw [update_by_id_fst, update_run_times_fst,
        get_dbUpdateFirst _ _ _ (fun x => applyUpdateForm_id x _ _) id, if_pos rfl,
        get_dbUpdateFirst _ _ _ (fun x => runTimesUpd_id _ _ _ x) id, if_pos rfl,
        hga1']
      refine ⟨_, rfl, rfl, ?_⟩
      cases hn : (get_job st.jobs ("action_" ++ id)).bind (fun j => j.next_run_time) with
      | some t => rfl
      | none => exact hnext1
  · have heqw := wrapper_enabled_not_once_eq env st id now a hget hen honce
    rw [heqw, hjobs]
    constructor
    · simp
    · rw [update_run_times_fst,
        get_dbUpdateFirst _ _ _ (fun x => runTimesUpd_id _ _ _ x) id, if_pos rfl,
        hga1']
      refine ⟨_, rfl, rfl, ?_⟩
      cases hn : (get_job st.jobs ("action_" ++ id)).bind (fun j => j.next_run_time) with
      | some t => rfl
      | none => exact hnext1

/-- Witness for the amended C5 at a concrete fire. -/
theorem run_times_bookkeeping_witness :
    Ev.updated_run_times "a1" 100
        ((get_job stOnce.jobs "action_a1").bind (fun j => j.next_run_time))
      ∈ (execute_action_wrapper envW stOnce "a1" 100).2
    ∧ ∃ a2,
        get_scheduled_action_by_id
            (execute_action_wrapper envW stOnce "a1" 100).1.db "a1"
          = some a2
        ∧ a2.last_run_at = some 100
        ∧ a2.next_run_at
            = (match (get_job stOnce.jobs "action_a1").bind
                  (fun j => j.next_run_time) with
               | some t => some t
               | none => aOnce.next_run_at) :=
  run_times_bookkeeping envW stOnce "a1" 100 aOnce rfl rfl

/-- C8: when the execution outcome carries a truthy `chat_id`, the scheduler
    merge-writes the action's `action_config` setting only the `chat_id`
    key: every other key keeps its existing value, and no other semantic
    field of the row changes. -/
theorem chat_id_merge_preserves_config (env : SchedEnv) (st : SchedState)
    (a : ScheduledActionModel) (now : Nat) (result : Dict) (cv : PyVal)
    (hrow : get_scheduled_action_by_id st.db a.id = some a)
    (hex : env.hasExecutor a.action_type = true)
    (hrun : env.runExecutor a.user_id a.action_config = Except.ok result)
    (hcid : dictGet result "chat_id" = some cv)
    (htr : pyTruthy cv = true)
    (hwr : env.configWriteFails = none) :
    ∃ a2,
      get_scheduled_action_by_id (execute_action env st a now).1.db a.id = some a2
      ∧ a2.action_config = dictSet a.action_config "chat_id" cv
      ∧ dictGet a2.action_config "chat_id" = some cv
      ∧ (∀ k, ¬ k = "chat_id" →
          dictGet a2.action_config k = dictGet a.action_config k)
      ∧ a2.id = a.id ∧ a2.enabled = a.enabled ∧ a2.schedule_type = a.schedule_type
      ∧ a2.last_run_at = a.last_run_at ∧ a2.next_run_at = a.next_run_at := by
  have hbody : execute_action_body env st a now
      = Except.ok
          ({ st with db := (update_scheduled_action_by_id st.db a.id
              { action_config := some (dictSet a.action_config "chat_id" cv) }
              now).1 }, result) := by
    unfold execute_action_body
    rw [if_pos hex, hrun]
    simp only [hcid, htr, if_true, hwr]
  unfold execute_action
  rw [hbody]
  rw [update_by_id_fst,
    get_dbUpdateFirst _ _ _ (fun x => applyUpdateForm_id x _ _) a.id,
    if_pos rfl, hrow]
  exact ⟨_, rfl, rfl, dictGet_dictSet_same _ _ _,
    fun k hk => dictGet_dictSet_other _ _ _ _ hk, rfl, rfl, rfl, rfl, rfl⟩

/-- Witness for C8 at a concrete outcome carrying `chat_id = "c9"`. -/
theorem chat_id_merge_preserves_config_witness :
    ∃ a2,
      get_scheduled_action_by_id (execute_action envW stOnce aOnce 100).1.db "a1"
        = some a2
      ∧ a2.action_config = dictSet aOnce.action_config "chat_id" (PyVal.vStr "c9")
      ∧ dictGet a2.action_config "chat_id" = some (PyVal.vStr "c9")
      ∧ (∀ k, ¬ k = "chat_id" →
          dictGet a2.action_config k = dictGet aOnce.action_config k)
      ∧ a2.id = "a1" ∧ a2.enabled = aOnce.enabled
      ∧ a2.schedule_type = aOnce.schedule_type
      ∧ a2.last_run_at = aOnce.last_run_at ∧ a2.next_run_at = aOnce.next_run_at :=
  chat_id_merge_preserves_config envW stOnce aOnce 100
    [("status", PyVal.vStr "success"), ("chat_id", PyVal.vStr "c9")]
    (PyVal.vStr "c9") rfl rfl rfl rfl (by decide) rfl

/-- C2: timers are keyed by action id and `add_job(..., replace_existing)`
    replaces any prior timer for that id, so from a timer set with at most
    one timer per id, any interleaving of the scheduler's primitive registry
    mutations — and hence any interleaving of `reload()` calls and fires,
    whose effects on the registry are exactly sequences of those primitives
    (second and third conjuncts) — leaves at most one armed timer per
    action id. -/
theorem at_most_one_timer_per_action (st : SchedState) (ops : List SchedOp)
    (h : timersUnique st.jobs) :
    (∀ k, countKey (applyOps st.jobs ops) k ≤ 1)
    ∧ (∀ env w now, ∃ ops2,
        (reload_jobs env w st now).jobs = applyOps st.jobs ops2)
    ∧ (∀ env id now, ∃ ops3,
        (execute_action_wrapper env st id now).1.jobs = applyOps st.jobs ops3) := by
  refine ⟨timersUnique_applyOps st.jobs ops h, ?_, ?_⟩
  · intro env w now
    obtain ⟨ops', h'⟩ :=
      foldl_schedJM_ops env (get_enabled_scheduled_actions st.db) ([], [])
    refine ⟨SchedOp.removeAll :: ops', ?_⟩
    have hjm : (reload_jobs env w st now).jobs
        = ((get_enabled_scheduled_actions st.db).foldl
            (fun p a => schedJM env a p) ([], [])).1 :=
      congrArg Prod.fst (reload_jobs_jm env w st now)
    rw [hjm, h']
    rfl
  · intro env id now
    cases execute_action_wrapper_jobs_cases env st id now with
    | inl hc => exact ⟨[], hc⟩
    | inr hc => exact ⟨[SchedOp.removeOne ("action_" ++ id)], hc⟩

/-- Witness for C2 at a concrete registry and mutation sequence. -/
theorem at_most_one_timer_per_action_witness :
    (∀ k, countKey
        (applyOps stOrphan.jobs
          [SchedOp.addOne "action_a1" jW, SchedOp.removeAll,
           SchedOp.addOne "action_a1" jW, SchedOp.addOne "action_a1" jW]) k ≤ 1)
    ∧ (∀ env w now, ∃ ops2,
        (reload_jobs env w stOrphan now).jobs = applyOps stOrphan.jobs ops2)
    ∧ (∀ env id now, ∃ ops3,
        (execute_action_wrapper env stOrphan id now).1.jobs
          = applyOps stOrphan.jobs ops3) :=
  at_most_one_timer_per_action stOrphan
    [SchedOp.addOne "action_a1" jW, SchedOp.removeAll,
     SchedOp.addOne "action_a1" jW, SchedOp.addOne "action_a1" jW]
    (by
      intro k
      show countKey [("action_a1", jW)] k ≤ 1
      rw [countKey_cons, countKey_nil]
      by_cases hk : ("action_a1" : String) = k <;> simp [hk])

/-- C6: a cron schedule whose effective expression is rejected by the
    validator or does not split into exactly 5 fields yields no trigger;
    `_schedule_action` then leaves the whole scheduler state unchanged (no
    timer armed, no crash), and a reload over a database containing the bad
    action arms exactly the timers it would arm without it. -/
theorem invalid_cron_skipped (env : SchedEnv) (w : String → Bool)
    (a : ScheduledActionModel) (s : String) (now : Nat)
    (st1 st2 : SchedState) (l1 l2 : DB)
    (hty : a.schedule_type = "cron")
    (hs : (dictGet a.schedule_config "expression").getD (PyVal.vStr "0 9 * * *")
            = PyVal.vStr s)
    (hbad : env.isValidCron s = false ∨ ¬ (pySplit s).length = 5)
    (hdb1 : st1.db = l1 ++ a :: l2) (hdb2 : st2.db = l1 ++ l2) :
    create_trigger env a = none
    ∧ (∀ st now2 w2, schedule_action env w2 st a now2 = st)
    ∧ (reload_jobs env w st1 now).jobs = (reload_jobs env w st2 now).jobs
    ∧ (reload_jobs env w st1 now).job_map = (reload_jobs env w st2 now).job_map := by
  have h1 : create_trigger env a = none := by
    simp only [create_trigger, hty, hs, beq_self_eq_true, if_true]
    cases hbad with
    | inl hv => simp only [hv, Bool.false_eq_true, if_false]
    | inr hl =>
      by_cases hv : env.isValidCron s = true
      · simp only [hv, if_true]
        revert hl
        generalize pySplit s = l
        intro hl
        rcases l with _ | ⟨x1, _ | ⟨x2, _ | ⟨x3, _ | ⟨x4, _ | ⟨x5, _ | ⟨x6, t⟩⟩⟩⟩⟩⟩
        · rfl
        · rfl
        · rfl
        · rfl
        · rfl
        · exact absurd rfl hl
        · rfl
      · rw [if_neg hv]
  refine ⟨h1, fun st now2 w2 => schedule_action_of_none env w2 st a now2 h1, ?_⟩
  have hjm1 := reload_jobs_jm env w st1 now
  have hjm2 := reload_jobs_jm env w st2 now
  rw [hdb1] at hjm1
  rw [hdb2] at hjm2
  unfold get_enabled_scheduled_actions at hjm1 hjm2
  rw [List.filter_append] at hjm1 hjm2
  rw [List.filter_cons] at hjm1
  have key :
      ((l1.filter (fun x => x.enabled))
        ++ (if a.enabled = true then a :: l2.filter (fun x => x.enabled)
            else l2.filter (fun x => x.enabled))).foldl
          (fun p x => schedJM env x p) ([], [])
      = ((l1.filter (fun x => x.enabled)) ++ l2.filter (fun x => x.enabled)).foldl
          (fun p x => schedJM env x p) ([], []) := by
    by_cases hen : a.enabled = true
    · rw [if_pos hen, List.foldl_append, List.foldl_append, List.foldl_cons,
        schedule_action_jm_of_none env a h1]
    · rw [if_neg hen]
  have heq :
      ((reload_jobs env w st1 now).jobs, (reload_jobs env w st1 now).job_map)
      = ((reload_jobs env w st2 now).jobs, (reload_jobs env w st2 now).job_map) := by
    rw [hjm1, hjm2]
    exact key
  exact ⟨congrArg Prod.fst heq, congrArg Prod.snd heq⟩

/-- Witness for C6: the three-field expression `x y z` is skipped and the
    neighbouring interval action is still scheduled. -/
theorem invalid_cron_skipped_witness :
    create_trigger envW aCronBad = none
    ∧ (∀ st now2 w2, schedule_action envW w2 st aCronBad now2 = st)
    ∧ (reload_jobs envW (fun _ => true) stMixed 77).jobs
        = (reload_jobs envW (fun _ => true) stGood 77).jobs
    ∧ (reload_jobs envW (fun _ => true) stMixed 77).job_map
        = (reload_jobs envW (fun _ => true) stGood 77).job_map :=
  invalid_cron_skipped envW (fun _ => true) aCronBad "x y z" 77 stMixed stGood
    [] [aIv] rfl rfl (Or.inl (by decide)) rfl rfl
